import Mathlib

/-!
Verification of the forex signal model (`src/forex.py`).

The Python class `TradingModel` holds five configuration fields plus a
mutable `data` field that is `None` until a fetch, and a pandas frame
afterwards.  We embed the frame as a list of rows; each row carries the
close price and the three indicator columns, the latter as `Option ℚ`
because the attached indicator series contain missing (NaN) entries
before the row elimination step.  Prices and parameters are rationals.

The market-data provider and the indicator library are external
collaborators: `fetch_data` is parameterised by the provider's returned
close series and by the three indicator functions, so theorems can
quantify over them.
-/

namespace Forex

/-- Python's `round` rounds half to even (banker's rounding). -/
def roundHalfEven (q : ℚ) : ℤ :=
  let f : ℤ := ⌊q⌋
  let frac : ℚ := q - f
  if frac < 1/2 then f
  else if 1/2 < frac then f + 1
  else if f % 2 = 0 then f else f + 1

/-- `round(x, 2)` from Python, on exact rationals. -/
def round2 (q : ℚ) : ℚ := (roundHalfEven (q * 100) : ℚ) / 100

/-- One row of the frame held in `self.data`: the close price plus the
three attached indicator columns, which may be missing (NaN). -/
structure Row where
  close : ℚ
  sma : Option ℚ
  ema : Option ℚ
  rsi : Option ℚ
deriving DecidableEq, Repr

/-- The `TradingModel` object: the five constructor fields and the
`data` attribute (`none` models Python's `None`). -/
structure TradingModel where
  currency_pair : String
  account_balance : ℚ
  risk_percent : ℚ
  stop_loss_pips : ℚ
  pip_value : ℚ
  data : Option (List Row)
deriving DecidableEq, Repr

/-- The five configuration fields, bundled to state frame conditions. -/
def TradingModel.params (m : TradingModel) : String × ℚ × ℚ × ℚ × ℚ :=
  (m.currency_pair, m.account_balance, m.risk_percent, m.stop_loss_pips, m.pip_value)

/-- Message of the `ValueError` raised on an empty download. -/
def noDataMsg : String :=
  "No data fetched. Please check the currency pair or network connection."

/-- The wrapper applied by `fetch_data`'s exception handler:
`ValueError(f"Error fetching data: \x7be\x7d")`. -/
def fetchErrMsg (e : String) : String := "Error fetching data: " ++ e

/-- Message of the `ValueError` raised by `generate_signal` when no
usable data is loaded. -/
def notReadyMsg : String :=
  "Data not loaded or insufficient data for generating signals."

/-- The fixed `ticker_map` dictionary of `fetch_data`. -/
def ticker_map (pair : String) : Option String :=
  if pair = "XAUUSD" then some "GC=F"
  else if pair = "EURUSD" then some "EURUSD=X"
  else if pair = "GBPUSD" then some "GBPUSD=X"
  else if pair = "USDJPY" then some "JPY=X"
  else none

/-- `ticker_map.get(self.currency_pair, self.currency_pair)`. -/
def mapTicker (pair : String) : String := (ticker_map pair).getD pair

/-- Attach the three indicator columns to the close series, aligning
position by position (the indicator contract guarantees equal lengths;
like pandas column assignment, extra elements on either side are not
paired). -/
def attachRows : List ℚ → List (Option ℚ) → List (Option ℚ) → List (Option ℚ) → List Row
  | c :: cs, s :: ss, e :: es, r :: rs => ⟨c, s, e, r⟩ :: attachRows cs ss es rs
  | _, _, _, _ => []

/-- A row survives `dropna`: none of its indicator entries is missing
(the close entry is always present in our embedding). -/
def keepRow (r : Row) : Bool := r.sma.isSome && r.ema.isSome && r.rsi.isSome

/-- `self.data.dropna(inplace=True)`: remove every row with a missing
entry. -/
def dropna (rows : List Row) : List Row := rows.filter keepRow

/-- `TradingModel.fetch_data`, parameterised by the indicator functions
and by the series the provider returned for the mapped ticker.  Returns
the updated object together with the raised error message, if any.
On an empty download the raw (empty) frame has already been stored in
`self.data` when the `ValueError` is raised and wrapped. -/
def TradingModel.fetch_data (m : TradingModel)
    (smaF emaF rsiF : List ℚ → List (Option ℚ))
    (fetched : List ℚ) : TradingModel × Option String :=
  if fetched.isEmpty then
    ({ m with data := some [] }, some (fetchErrMsg noDataMsg))
  else
    let retained := dropna (attachRows fetched (smaF fetched) (emaF fetched) (rsiF fetched))
    ({ m with data := some retained }, none)

inductive Action
  | Buy
  | Sell
  | Hold
deriving DecidableEq, Repr

/-- The tuple `generate_signal` returns: action, entry price, and the
optional take-profit / stop-loss levels (`None` on Hold). -/
structure Signal where
  action : Action
  entry_price : ℚ
  take_profit : Option ℚ
  stop_loss : Option ℚ
deriving DecidableEq, Repr

/-- The threshold rule applied to the last row's scalar values. -/
def signalOf (stop_loss_pips pip_value rsi close sma : ℚ) : Signal :=
  if rsi < 30 ∧ close > sma then
    ⟨.Buy, close, some (close + stop_loss_pips * pip_value),
      some (close - stop_loss_pips * pip_value)⟩
  else if rsi > 70 ∧ close < sma then
    ⟨.Sell, close, some (close - stop_loss_pips * pip_value),
      some (close + stop_loss_pips * pip_value)⟩
  else
    ⟨.Hold, close, none, none⟩

/-- `TradingModel.generate_signal`, in state-passing form (the method
never assigns an attribute, so the returned object is the argument).
`iloc[-1]` is the last row.  If an indicator value in that row is NaN,
every float comparison against it is `False` in Python, so both branch
conditions fail and the Hold tuple is returned. -/
def TradingModel.generate_signal (m : TradingModel) :
    TradingModel × Except String Signal :=
  match m.data with
  | none => (m, .error notReadyMsg)
  | some rows =>
    match rows.getLast? with
    | none => (m, .error notReadyMsg)
    | some last =>
      match last.rsi, last.sma with
      | some rsi, some sma =>
        (m, .ok (signalOf m.stop_loss_pips m.pip_value rsi last.close sma))
      | some _, none => (m, .ok ⟨.Hold, last.close, none, none⟩)
      | none, _ => (m, .ok ⟨.Hold, last.close, none, none⟩)

/-- `TradingModel.calculate_lot_size`, in state-passing form. -/
def TradingModel.calculate_lot_size (m : TradingModel) : TradingModel × ℚ :=
  let risk_amount := m.account_balance * (m.risk_percent / 100)
  let lot_size := risk_amount / (m.stop_loss_pips * m.pip_value)
  (m, round2 lot_size)

/-- Every entry of the series is present. -/
def allSome (l : List (Option ℚ)) : Bool := l.all Option.isSome

/-- The missing entries of an indicator series form an initial segment:
once an entry is present, all later ones are.  This is the indicator
contract: each value is undefined for the first window positions and
defined afterwards. -/
def nonesThenSomes : List (Option ℚ) → Bool
  | [] => true
  | none :: rest => nonesThenSomes rest
  | some _ :: rest => allSome rest

/-- Rows failing `keepRow` form an initial segment of the frame. -/
def monotoneKeep : List Row → Bool
  | [] => true
  | r :: rest => if keepRow r then rest.all keepRow else monotoneKeep rest

lemma nonesThenSomes_of_allSome {l : List (Option ℚ)} (h : allSome l = true) :
    nonesThenSomes l = true := by
  cases l with
  | nil => rfl
  | cons a rest =>
    cases a with
    | none => simp [allSome] at h
    | some x =>
      simp only [allSome, List.all_cons, Bool.and_eq_true] at h
      simpa [nonesThenSomes, allSome] using h.2

lemma attachRows_all_keep {cs : List ℚ} {ss es rs : List (Option ℚ)}
    (hs : allSome ss = true) (he : allSome es = true) (hr : allSome rs = true) :
    (attachRows cs ss es rs).all keepRow = true := by
  induction cs generalizing ss es rs with
  | nil => cases ss <;> cases es <;> cases rs <;> rfl
  | cons c cs ih =>
    cases ss with
    | nil => rfl
    | cons s ss =>
      cases es with
      | nil => rfl
      | cons e es =>
        cases rs with
        | nil => rfl
        | cons r rs =>
          simp only [allSome, List.all_cons, Bool.and_eq_true] at hs he hr
          simp only [attachRows, List.all_cons, Bool.and_eq_true]
          refine ⟨?_, ih hs.2 he.2 hr.2⟩
          simp [keepRow, hs.1, he.1, hr.1]

lemma attachRows_monotoneKeep {cs : List ℚ} {ss es rs : List (Option ℚ)}
    (hs : nonesThenSomes ss = true) (he : nonesThenSomes es = true)
    (hr : nonesThenSomes rs = true) :
    monotoneKeep (attachRows cs ss es rs) = true := by
  induction cs generalizing ss es rs with
  | nil => cases ss <;> cases es <;> cases rs <;> rfl
  | cons c cs ih =>
    cases ss with
    | nil => rfl
    | cons s ss =>
      cases es with
      | nil => rfl
      | cons e es =>
        cases rs with
        | nil => rfl
        | cons r rs =>
          have tail_s : nonesThenSomes ss = true := by
            cases s with
            | none => exact hs
            | some x => exact nonesThenSomes_of_allSome hs
          have tail_e : nonesThenSomes es = true := by
            cases e with
            | none => exact he
            | some x => exact nonesThenSomes_of_allSome he
          have tail_r : nonesThenSomes rs = true := by
            cases r with
            | none => exact hr
            | some x => exact nonesThenSomes_of_allSome hr
          simp only [attachRows, monotoneKeep]
          by_cases hk : keepRow ⟨c, s, e, r⟩ = true
          · simp only [hk, if_true]
            simp only [keepRow, Bool.and_eq_true, Option.isSome_iff_exists] at hk
            obtain ⟨⟨⟨xs, hxs⟩, ⟨xe, hxe⟩⟩, ⟨xr, hxr⟩⟩ := hk
            subst hxs; subst hxe; subst hxr
            exact attachRows_all_keep hs he hr
          · simp only [Bool.not_eq_true] at hk
            simp only [hk, if_false]
            exact ih tail_s tail_e tail_r

lemma dropna_suffix_of_monotoneKeep {rows : List Row}
    (h : monotoneKeep rows = true) : dropna rows <:+ rows := by
  induction rows with
  | nil => exact List.suffix_refl _
  | cons r rest ih =>
    simp only [monotoneKeep] at h
    by_cases hk : keepRow r = true
    · simp only [hk, if_true] at h
      have : dropna (r :: rest) = r :: rest := by
        apply List.filter_eq_self.mpr
        intro a ha
        rcases List.mem_cons.mp ha with rfl | ha
        · exact hk
        · exact List.all_eq_true.mp h a ha
      rw [this]
    · simp only [Bool.not_eq_true] at hk
      simp only [hk, if_false] at h
      have : dropna (r :: rest) = dropna rest := by
        simp [dropna, List.filter_cons, hk]
      rw [this]
      exact (ih h).trans (List.suffix_cons r rest)

lemma attachRows_map_close {cs : List ℚ} {ss es rs : List (Option ℚ)}
    (hls : ss.length = cs.length) (hle : es.length = cs.length)
    (hlr : rs.length = cs.length) :
    (attachRows cs ss es rs).map Row.close = cs := by
  induction cs generalizing ss es rs with
  | nil =>
    rw [List.length_nil, List.length_eq_zero] at hls hle hlr
    subst hls; subst hle; subst hlr
    rfl
  | cons c cs ih =>
    cases ss with
    | nil => simp at hls
    | cons s ss =>
      cases es with
      | nil => simp at hle
      | cons e es =>
        cases rs with
        | nil => simp at hlr
        | cons r rs =>
          simp only [List.length_cons, Nat.succ.injEq] at hls hle hlr
          simp only [attachRows, List.map_cons]
          rw [ih hls hle hlr]

lemma signalOf_entry_price (p v r c s : ℚ) : (signalOf p v r c s).entry_price = c := by
  unfold signalOf
  split_ifs <;> rfl

lemma generate_signal_fst (m : TradingModel) : (m.generate_signal).1 = m := by
  obtain ⟨cp, ab, rp, sp, pv, d⟩ := m
  unfold TradingModel.generate_signal
  rcases d with _ | rows
  · rfl
  · rcases hl : rows.getLast? with _ | last
    · simp only [hl]
    · obtain ⟨c, os, oe, orr⟩ := last
      rcases orr with _ | rsi <;> rcases os with _ | sma <;> simp only [hl]

lemma generate_signal_of_getLast {m : TradingModel} {rows : List Row} {last : Row}
    (hd : m.data = some rows) (hl : rows.getLast? = some last) :
    (m.generate_signal).2 = Except.ok
      (match last.rsi, last.sma with
        | some rsi, some sma =>
          signalOf m.stop_loss_pips m.pip_value rsi last.close sma
        | some _, none => ⟨.Hold, last.close, none, none⟩
        | none, _ => ⟨.Hold, last.close, none, none⟩) := by
  obtain ⟨c, os, oe, orr⟩ := last
  simp only [TradingModel.generate_signal, hd, hl]
  rcases orr with _ | rsi <;> rcases os with _ | sma <;> rfl

end Forex

namespace Forex

/-- Claim C1: for every loaded non-empty series and every parameter set,
if the latest retained row has rsi < 30 and close > sma, then
`generate_signal` returns action Buy with entry_price = close,
take_profit = close + stop_loss_pips × pip_value, and
stop_loss = close − stop_loss_pips × pip_value. -/
theorem generate_signal_buy (m : TradingModel) (rows : List Row) (last : Row)
    (rsi sma : ℚ)
    (hdata : m.data = some rows) (hlast : rows.getLast? = some last)
    (hrsi : last.rsi = some rsi) (hsma : last.sma = some sma)
    (h1 : rsi < 30) (h2 : last.close > sma) :
    (m.generate_signal).2 = Except.ok
      ⟨Action.Buy, last.close,
        some (last.close + m.stop_loss_pips * m.pip_value),
        some (last.close - m.stop_loss_pips * m.pip_value)⟩ := by
  simp only [TradingModel.generate_signal, hdata, hlast, hrsi, hsma]
  unfold signalOf
  rw [if_pos ⟨h1, h2⟩]

theorem generate_signal_buy_witness :
    (⟨"EURUSD", 1000, 1, 50, 10,
        some [⟨110, some 100, some 100, some 25⟩]⟩ : TradingModel).data
        = some [⟨110, some 100, some 100, some 25⟩] ∧
    ([(⟨110, some 100, some 100, some 25⟩ : Row)]).getLast?
        = some ⟨110, some 100, some 100, some 25⟩ ∧
    (25 : ℚ) < 30 ∧ (110 : ℚ) > 100 ∧
    ((⟨"EURUSD", 1000, 1, 50, 10,
        some [⟨110, some 100, some 100, some 25⟩]⟩ : TradingModel).generate_signal).2
      = Except.ok ⟨Action.Buy, 110, some (110 + 50 * 10), some (110 - 50 * 10)⟩ :=
  ⟨rfl, rfl, by norm_num, by norm_num,
    generate_signal_buy
      ⟨"EURUSD", 1000, 1, 50, 10, some [⟨110, some 100, some 100, some 25⟩]⟩
      [⟨110, some 100, some 100, some 25⟩] ⟨110, some 100, some 100, some 25⟩
      25 100 rfl rfl rfl rfl (by norm_num) (by norm_num)⟩

/-- Claim C2: for every loaded non-empty series and every parameter set,
if the latest retained row has rsi > 70 and close < sma, then
`generate_signal` returns action Sell with entry_price = close,
take_profit = close − stop_loss_pips × pip_value, and
stop_loss = close + stop_loss_pips × pip_value. -/
theorem generate_signal_sell (m : TradingModel) (rows : List Row) (last : Row)
    (rsi sma : ℚ)
    (hdata : m.data = some rows) (hlast : rows.getLast? = some last)
    (hrsi : last.rsi = some rsi) (hsma : last.sma = some sma)
    (h1 : rsi > 70) (h2 : last.close < sma) :
    (m.generate_signal).2 = Except.ok
      ⟨Action.Sell, last.close,
        some (last.close - m.stop_loss_pips * m.pip_value),
        some (last.close + m.stop_loss_pips * m.pip_value)⟩ := by
  simp only [TradingModel.generate_signal, hdata, hlast, hrsi, hsma]
  unfold signalOf
  rw [if_neg (by rintro ⟨h30, hgt⟩; exact absurd h2 (not_lt.mpr hgt.le)), if_pos ⟨h1, h2⟩]

theorem generate_signal_sell_witness :
    (⟨"EURUSD", 1000, 1, 50, 10,
        some [⟨90, some 100, some 100, some 75⟩]⟩ : TradingModel).data
        = some [⟨90, some 100, some 100, some 75⟩] ∧
    ([(⟨90, some 100, some 100, some 75⟩ : Row)]).getLast?
        = some ⟨90, some 100, some 100, some 75⟩ ∧
    (75 : ℚ) > 70 ∧ (90 : ℚ) < 100 ∧
    ((⟨"EURUSD", 1000, 1, 50, 10,
        some [⟨90, some 100, some 100, some 75⟩]⟩ : TradingModel).generate_signal).2
      = Except.ok ⟨Action.Sell, 90, some (90 - 50 * 10), some (90 + 50 * 10)⟩ :=
  ⟨rfl, rfl, by norm_num, by norm_num,
    generate_signal_sell
      ⟨"EURUSD", 1000, 1, 50, 10, some [⟨90, some 100, some 100, some 75⟩]⟩
      [⟨90, some 100, some 100, some 75⟩] ⟨90, some 100, some 100, some 75⟩
      75 100 rfl rfl rfl rfl (by norm_num) (by norm_num)⟩

/-- Claim C3: whenever the latest retained row satisfies neither Buy nor
Sell condition — in particular when rsi is exactly 30 or exactly 70 —
`generate_signal` returns action Hold with take_profit and stop_loss
absent. -/
theorem generate_signal_hold (m : TradingModel) (rows : List Row) (last : Row)
    (rsi sma : ℚ)
    (hdata : m.data = some rows) (hlast : rows.getLast? = some last)
    (hrsi : last.rsi = some rsi) (hsma : last.sma = some sma)
    (h1 : ¬(rsi < 30 ∧ last.close > sma)) (h2 : ¬(rsi > 70 ∧ last.close < sma)) :
    (m.generate_signal).2 = Except.ok ⟨Action.Hold, last.close, none, none⟩ := by
  simp only [TradingModel.generate_signal, hdata, hlast, hrsi, hsma]
  unfold signalOf
  rw [if_neg h1, if_neg h2]

theorem generate_signal_hold_witness :
    (⟨"EURUSD", 1000, 1, 50, 10,
        some [⟨100, some 100, some 100, some 30⟩]⟩ : TradingModel).data
        = some [⟨100, some 100, some 100, some 30⟩] ∧
    ([(⟨100, some 100, some 100, some 30⟩ : Row)]).getLast?
        = some ⟨100, some 100, some 100, some 30⟩ ∧
    ¬((30 : ℚ) < 30 ∧ (100 : ℚ) > 100) ∧ ¬((30 : ℚ) > 70 ∧ (100 : ℚ) < 100) ∧
    ((⟨"EURUSD", 1000, 1, 50, 10,
        some [⟨100, some 100, some 100, some 30⟩]⟩ : TradingModel).generate_signal).2
      = Except.ok ⟨Action.Hold, 100, none, none⟩ :=
  ⟨rfl, rfl, by norm_num, by norm_num,
    generate_signal_hold
      ⟨"EURUSD", 1000, 1, 50, 10, some [⟨100, some 100, some 100, some 30⟩]⟩
      [⟨100, some 100, some 100, some 30⟩] ⟨100, some 100, some 100, some 30⟩
      30 100 rfl rfl rfl rfl (by norm_num) (by norm_num)⟩

/-- Claim C4: under the user-input constraints, `calculate_lot_size`
returns `round((account_balance × (risk_percent / 100)) /
(stop_loss_pips × pip_value), 2)`; the result is the same whatever the
`data` field holds (including `none`, i.e. before any fetch), and on
account_balance = 1000, risk_percent = 1.0, stop_loss_pips = 50,
pip_value = 10.0 it is 0.02. -/
theorem calculate_lot_size_spec (m : TradingModel) (d : Option (List Row))
    (h1 : 100 ≤ m.account_balance)
    (h2 : 1/10 ≤ m.risk_percent) (h3 : m.risk_percent ≤ 5)
    (h4 : 10 ≤ m.stop_loss_pips) (h5 : 1/100 ≤ m.pip_value) :
    (({ m with data := d } : TradingModel).calculate_lot_size).2
        = round2 ((m.account_balance * (m.risk_percent / 100))
            / (m.stop_loss_pips * m.pip_value)) ∧
    ((⟨"EURUSD", 1000, 1, 50, 10, none⟩ : TradingModel).calculate_lot_size).2
        = 2/100 := by
  constructor
  · rfl
  · show round2 ((1000 * ((1 : ℚ) / 100)) / (50 * 10)) = 2/100
    norm_num [round2, roundHalfEven]

theorem calculate_lot_size_spec_witness :
    (100 : ℚ) ≤ 1000 ∧ (1 : ℚ)/10 ≤ 1 ∧ (1 : ℚ) ≤ 5 ∧ (10 : ℚ) ≤ 50 ∧
    (1 : ℚ)/100 ≤ 10 ∧
    ((⟨"EURUSD", 1000, 1, 50, 10,
        some [⟨100, some 100, some 100, some 30⟩]⟩ : TradingModel).calculate_lot_size).2
      = round2 ((1000 * ((1 : ℚ) / 100)) / (50 * 10)) := by
  refine ⟨by norm_num, by norm_num, by norm_num, by norm_num, by norm_num, ?_⟩
  exact (calculate_lot_size_spec
    ⟨"EURUSD", 1000, 1, 50, 10, none⟩ (some [⟨100, some 100, some 100, some 30⟩])
    (by norm_num) (by norm_num) (by norm_num) (by norm_num) (by norm_num)).1

/-- Claim C5: when the provider returns an empty series, `fetch_data`
fails with the wrapped data-unavailable message (the underlying cause is
attached by the exception handler), and it does so whatever the three
indicator functions are — i.e. before any indicator computation can
influence the outcome.  The raw empty frame is what remains stored. -/
theorem fetch_data_empty_error (m : TradingModel)
    (smaF emaF rsiF : List ℚ → List (Option ℚ)) :
    m.fetch_data smaF emaF rsiF []
      = ({ m with data := some [] }, some (fetchErrMsg noDataMsg)) := rfl

/-- Claim C6: `generate_signal` fails with the not-ready error exactly
when no data is loaded (`data = None`) or the loaded series has zero
rows; on every non-empty loaded series it returns a signal instead of
indexing into an empty series. -/
theorem generate_signal_not_ready (m : TradingModel) :
    ((m.generate_signal).2 = Except.error notReadyMsg
        ↔ m.data = none ∨ m.data = some []) ∧
    (m.data = none ∨ m.data = some []
        ∨ ∃ s, (m.generate_signal).2 = Except.ok s) := by
  rcases hd : m.data with _ | rows
  · simp [TradingModel.generate_signal, hd]
  · rcases hl : rows.getLast? with _ | last
    · have hnil : rows = [] := List.getLast?_eq_none_iff.mp hl
      subst hnil
      simp [TradingModel.generate_signal, hd]
    · have hne : rows ≠ [] := by
        intro h
        subst h
        simp at hl
      have hok := generate_signal_of_getLast hd hl
      constructor
      · rw [hok]
        constructor
        · intro h
          exact absurd h (by simp)
        · rintro (h | h)
          · exact absurd h (by simp)
          · exact absurd (Option.some_injective _ h) hne
      · exact Or.inr (Or.inr ⟨_, hok⟩)

/-- Claim C7: after a successful `fetch_data`, the retained series
contains zero rows with a missing Close, SMA, EMA or RSI value (Close is
always present in the embedding), and the retained rows are a contiguous
final segment of the attached frame and of the originally fetched
series, assuming the indicator contract (aligned lengths, missing values
only in an initial segment). -/
theorem fetch_data_retained_suffix (m : TradingModel)
    (smaF emaF rsiF : List ℚ → List (Option ℚ)) (fetched : List ℚ)
    (hne : fetched ≠ [])
    (hs : nonesThenSomes (smaF fetched) = true)
    (he : nonesThenSomes (emaF fetched) = true)
    (hr : nonesThenSomes (rsiF fetched) = true)
    (hls : (smaF fetched).length = fetched.length)
    (hle : (emaF fetched).length = fetched.length)
    (hlr : (rsiF fetched).length = fetched.length) :
    ∃ retained,
      (m.fetch_data smaF emaF rsiF fetched).1.data = some retained ∧
      (m.fetch_data smaF emaF rsiF fetched).2 = none ∧
      retained.all keepRow = true ∧
      retained <:+ attachRows fetched (smaF fetched) (emaF fetched) (rsiF fetched) ∧
      retained.map Row.close <:+ fetched := by
  have hemp : fetched.isEmpty = false := by
    cases fetched with
    | nil => exact absurd rfl hne
    | cons a l => rfl
  have hsuffix :
      dropna (attachRows fetched (smaF fetched) (emaF fetched) (rsiF fetched))
        <:+ attachRows fetched (smaF fetched) (emaF fetched) (rsiF fetched) :=
    dropna_suffix_of_monotoneKeep (attachRows_monotoneKeep hs he hr)
  refine ⟨dropna (attachRows fetched (smaF fetched) (emaF fetched) (rsiF fetched)),
    ?_, ?_, ?_, hsuffix, ?_⟩
  · simp [TradingModel.fetch_data, hemp]
  · simp [TradingModel.fetch_data, hemp]
  · rw [List.all_eq_true]
    intro r hmem
    rw [dropna] at hmem
    exact (List.mem_filter.mp hmem).2
  · have h1 := hsuffix.map Row.close
    rwa [attachRows_map_close hls hle hlr] at h1

theorem fetch_data_retained_suffix_witness :
    ([1, 2, 3] : List ℚ) ≠ [] ∧
    nonesThenSomes ((fun l : List ℚ => none :: (l.drop 1).map some) ([1, 2, 3] : List ℚ)) = true ∧
    nonesThenSomes ((fun l : List ℚ => l.map some) ([1, 2, 3] : List ℚ)) = true ∧
    ((fun l : List ℚ => none :: (l.drop 1).map some) ([1, 2, 3] : List ℚ)).length = 3 ∧
    ((fun l : List ℚ => l.map some) ([1, 2, 3] : List ℚ)).length = 3 ∧
    (∃ retained,
      ((⟨"EURUSD", 1000, 1, 50, 10, none⟩ : TradingModel).fetch_data
          (fun l : List ℚ => none :: (l.drop 1).map some) (fun l : List ℚ => l.map some)
          (fun l : List ℚ => l.map some) [1, 2, 3]).1.data = some retained ∧
      ((⟨"EURUSD", 1000, 1, 50, 10, none⟩ : TradingModel).fetch_data
          (fun l : List ℚ => none :: (l.drop 1).map some) (fun l : List ℚ => l.map some)
          (fun l : List ℚ => l.map some) [1, 2, 3]).2 = none ∧
      retained.all keepRow = true ∧
      retained <:+ attachRows [1, 2, 3]
          ((fun l : List ℚ => none :: (l.drop 1).map some) ([1, 2, 3] : List ℚ))
          ((fun l : List ℚ => l.map some) ([1, 2, 3] : List ℚ))
          ((fun l : List ℚ => l.map some) ([1, 2, 3] : List ℚ)) ∧
      retained.map Row.close <:+ [1, 2, 3]) :=
  ⟨by decide, rfl, rfl, rfl, rfl,
    fetch_data_retained_suffix ⟨"EURUSD", 1000, 1, 50, 10, none⟩
      (fun l : List ℚ => none :: (l.drop 1).map some) (fun l : List ℚ => l.map some)
      (fun l : List ℚ => l.map some) [1, 2, 3]
      (by decide) rfl rfl rfl rfl rfl rfl⟩

/-- Claim C8: `generate_signal` reads only the most recent retained row:
two models with identical parameters whose loaded non-empty series end
in rows with identical (rsi, close, sma) — the earlier rows and even the
last row's EMA being arbitrary — produce identical results. -/
theorem generate_signal_last_row_only (m₁ m₂ : TradingModel)
    (rows₁ rows₂ : List Row) (last₁ last₂ : Row)
    (hp : m₁.params = m₂.params)
    (hd₁ : m₁.data = some rows₁) (hd₂ : m₂.data = some rows₂)
    (hl₁ : rows₁.getLast? = some last₁) (hl₂ : rows₂.getLast? = some last₂)
    (hrsi : last₁.rsi = last₂.rsi) (hclose : last₁.close = last₂.close)
    (hsma : last₁.sma = last₂.sma) :
    (m₁.generate_signal).2 = (m₂.generate_signal).2 := by
  have hpips : m₁.stop_loss_pips = m₂.stop_loss_pips :=
    congrArg (fun t => t.2.2.2.1) hp
  have hpv : m₁.pip_value = m₂.pip_value :=
    congrArg (fun t => t.2.2.2.2) hp
  rw [generate_signal_of_getLast hd₁ hl₁, generate_signal_of_getLast hd₂ hl₂,
    hrsi, hclose, hsma, hpips, hpv]

theorem generate_signal_last_row_only_witness :
    (⟨"EURUSD", 1000, 1, 50, 10,
        some [⟨1, some 1, some 1, some 1⟩, ⟨110, some 100, some 7, some 25⟩]⟩
          : TradingModel).params
      = (⟨"EURUSD", 1000, 1, 50, 10,
          some [⟨110, some 100, some 8, some 25⟩]⟩ : TradingModel).params ∧
    ((⟨110, some 100, some 7, some 25⟩ : Row)).rsi
      = ((⟨110, some 100, some 8, some 25⟩ : Row)).rsi ∧
    ((⟨"EURUSD", 1000, 1, 50, 10,
        some [⟨1, some 1, some 1, some 1⟩, ⟨110, some 100, some 7, some 25⟩]⟩
          : TradingModel).generate_signal).2
      = ((⟨"EURUSD", 1000, 1, 50, 10,
          some [⟨110, some 100, some 8, some 25⟩]⟩ : TradingModel).generate_signal).2 :=
  ⟨rfl, rfl,
    generate_signal_last_row_only
      ⟨"EURUSD", 1000, 1, 50, 10,
        some [⟨1, some 1, some 1, some 1⟩, ⟨110, some 100, some 7, some 25⟩]⟩
      ⟨"EURUSD", 1000, 1, 50, 10, some [⟨110, some 100, some 8, some 25⟩]⟩
      [⟨1, some 1, some 1, some 1⟩, ⟨110, some 100, some 7, some 25⟩]
      [⟨110, some 100, some 8, some 25⟩]
      ⟨110, some 100, some 7, some 25⟩ ⟨110, some 100, some 8, some 25⟩
      rfl rfl rfl rfl rfl rfl rfl rfl⟩

/-- Claim C9: the five constructor fields are never mutated: the object
returned by `fetch_data` (on success and on failure alike) agrees with
the original on all of them, and `generate_signal` and
`calculate_lot_size` return the object unchanged. -/
theorem params_never_mutated (m : TradingModel)
    (smaF emaF rsiF : List ℚ → List (Option ℚ)) (fetched : List ℚ) :
    (m.fetch_data smaF emaF rsiF fetched).1.params = m.params ∧
    (m.generate_signal).1.params = m.params ∧
    (m.calculate_lot_size).1.params = m.params := by
  refine ⟨?_, by rw [generate_signal_fst], rfl⟩
  cases fetched with
  | nil => rfl
  | cons a l => rfl

/-- Claim C10: on every loaded non-empty series `generate_signal`
succeeds and its entry price equals the Close of the latest retained
row, in all three branches — including Hold, where take-profit and
stop-loss are absent but the entry price is still produced. -/
theorem generate_signal_entry_is_close (m : TradingModel)
    (rows : List Row) (last : Row)
    (hdata : m.data = some rows) (hlast : rows.getLast? = some last) :
    ∃ s, (m.generate_signal).2 = Except.ok s ∧ s.entry_price = last.close := by
  refine ⟨_, generate_signal_of_getLast hdata hlast, ?_⟩
  obtain ⟨c, os, oe, orr⟩ := last
  rcases orr with _ | rsi <;> rcases os with _ | sma
  · rfl
  · rfl
  · rfl
  · exact signalOf_entry_price _ _ _ _ _

theorem generate_signal_entry_is_close_witness :
    (⟨"EURUSD", 1000, 1, 50, 10,
        some [⟨100, some 100, some 100, some 50⟩]⟩ : TradingModel).data
      = some [⟨100, some 100, some 100, some 50⟩] ∧
    ([(⟨100, some 100, some 100, some 50⟩ : Row)]).getLast?
      = some ⟨100, some 100, some 100, some 50⟩ ∧
    (∃ s, ((⟨"EURUSD", 1000, 1, 50, 10,
        some [⟨100, some 100, some 100, some 50⟩]⟩ : TradingModel).generate_signal).2
          = Except.ok s ∧
      s.entry_price = (100 : ℚ)) :=
  ⟨rfl, rfl,
    generate_signal_entry_is_close
      ⟨"EURUSD", 1000, 1, 50, 10, some [⟨100, some 100, some 100, some 50⟩]⟩
      [⟨100, some 100, some 100, some 50⟩] ⟨100, some 100, some 100, some 50⟩
      rfl rfl⟩

end Forex

